import Mathlib

/-!
Shallow embedding of the sunshine thread-pool library (taskqueue.h,
workbranch.h, supervisor.h, workspace.h) together with theorems checking
the natural-language specification against the code.

Conventions of the embedding:
- tasks are opaque and modelled by Nat identifiers; the task deque is a
  List with its front at the head;
- worker threads are identified by their map key (a Nat thread id); the
  std::map of workers is modelled by its key list in insertion order;
- size_t counters are Nat, with modulo 2^64 made explicit where the C++
  subtraction could wrap;
- condition variables carry no state; a notify is recorded, where a claim
  mentions it, as a count returned next to the new state;
- a C++ method that throws returns the error next to the unchanged state.
-/

namespace sunshine

/-- Wait strategy enumeration from workbranch.h. -/
inductive waitStrategy
  | lowlatancy
  | balance
  | blocking
  deriving DecidableEq, Repr

namespace taskQueue

/-- taskQueue::push_back - append at the back of the deque. -/
def push_back (q : List α) (v : α) : List α :=
  q ++ [v]

/-- taskQueue::push_front - insert at the front of the deque. -/
def push_front (q : List α) (v : α) : List α :=
  v :: q

/-- taskQueue::try_pop - remove and return the front element if the deque
is non-empty, otherwise report failure and leave the deque as it is. -/
def try_pop (q : List α) : Option (α × List α) :=
  match q with
  | [] => none
  | x :: xs => some (x, xs)

/-- taskQueue::getLength - number of queued elements. -/
def getLength (q : List α) : Nat :=
  q.length

/-- One client-visible enqueue call on the queue. -/
inductive queueOp (α : Type)
  | back (v : α)
  | front (v : α)
  deriving DecidableEq, Repr

/-- Run a list of enqueue calls starting from a given queue state. -/
def applyOpsFrom (q : List α) : List (queueOp α) → List α
  | [] => q
  | .back v :: ops => applyOpsFrom (push_back q v) ops
  | .front v :: ops => applyOpsFrom (push_front q v) ops

/-- Run a list of enqueue calls starting from the empty queue. -/
def applyOps (ops : List (queueOp α)) : List α :=
  applyOpsFrom [] ops

/-- The back-pushed elements of a call list, in push order. -/
def backsOf : List (queueOp α) → List α
  | [] => []
  | .back v :: ops => v :: backsOf ops
  | .front _ :: ops => backsOf ops

/-- The front-pushed elements of a call list, in push order. -/
def frontsOf : List (queueOp α) → List α
  | [] => []
  | .back _ :: ops => frontsOf ops
  | .front v :: ops => v :: frontsOf ops

/-- Drain the queue by repeated try_pop, collecting the pops in order. -/
def popAll : List α → List α
  | [] => []
  | x :: xs =>
    match try_pop (x :: xs) with
    | none => []
    | some p => p.1 :: popAll xs

end taskQueue

/-- Error raised by workbranch::del_worker on an empty pool; the C++ code
throws std::runtime_error, which the spec taxonomy calls EmptyPool. -/
inductive poolError
  | emptyPool
  deriving DecidableEq, Repr

/-- The fields of class workbranch that its mutex guards, together with the
task queue (workbranch.h). -/
structure workbranch where
  workers : List Nat
  tq : List Nat
  decline : Nat
  task_done_workers : Nat
  waiting_finished_worker : Nat
  m_is_waiting : Bool
  destructing : Bool
  wait_strategy : waitStrategy
  deriving DecidableEq, Repr

namespace workbranch

/-- Field state before the constructor body runs (member initializers). -/
def init (strategy : waitStrategy) : workbranch :=
  { workers := [], tq := [], decline := 0, task_done_workers := 0,
    waiting_finished_worker := 0, m_is_waiting := false, destructing := false,
    wait_strategy := strategy }

/-- workbranch::add_worker - spawn a thread and emplace it into the map,
keyed by its thread id (emplace is a no-op on a duplicate key). -/
def add_worker (s : workbranch) (tid : Nat) : workbranch :=
  if tid ∈ s.workers then s else { s with workers := s.workers ++ [tid] }

/-- workbranch::workbranch(wks, strategy) - call add_worker max(wks, 1)
times; the fresh thread ids are distinct. -/
def construct (wks : Int) (strategy : waitStrategy) : workbranch :=
  (List.range (max wks 1).toNat).foldl add_worker (init strategy)

/-- workbranch::num_workers. -/
def num_workers (s : workbranch) : Nat :=
  s.workers.length

/-- workbranch::num_tasks. -/
def num_tasks (s : workbranch) : Nat :=
  taskQueue.getLength s.tq

/-- workbranch::del_worker - throw on an empty worker map, otherwise
increment decline and, under the blocking strategy, notify_one on task_cv.
Returns (thrown error, post state, number of notify_one calls). -/
def del_worker (s : workbranch) : Option poolError × workbranch × Nat :=
  if s.workers.isEmpty then
    (some poolError.emptyPool, s, 0)
  else
    (none, { s with decline := s.decline + 1 },
      if s.wait_strategy = waitStrategy.blocking then 1 else 0)

/-- workbranch::submit<normal> (void form) - push the wrapped task at the
back of the queue. -/
def submit_normal (s : workbranch) (t : Nat) : workbranch :=
  { s with tq := taskQueue.push_back s.tq t }

/-- What a single iteration of workbranch::mission did. -/
inductive missionEvent
  | exec (t : Nat)
  | retire
  | quiesce
  | idle
  deriving DecidableEq, Repr

/-- One iteration of workbranch::mission for the worker with id wid, up to
its first blocking point.  The branch order is that of the source: first
decline <= 0 combined with a successful try_pop, then decline > 0
(retirement), then m_is_waiting (report idle for wait_tasks), else idle
per strategy. -/
def mission_step (s : workbranch) (wid : Nat) : workbranch × missionEvent :=
  if s.decline = 0 then
    match taskQueue.try_pop s.tq with
    | some p => ({ s with tq := p.2 }, .exec p.1)
    | none =>
      if s.m_is_waiting then
        ({ s with task_done_workers := s.task_done_workers + 1 }, .quiesce)
      else
        (s, .idle)
  else
    ({ s with decline := s.decline - 1, workers := s.workers.erase wid }, .retire)

/-- The locked prologue of ~workbranch: set decline to the current worker
count and destructing to true (the task_cv broadcast carries no state). -/
def dtor_begin (s : workbranch) : workbranch :=
  { s with decline := s.workers.length, destructing := true }

/-- Interleavings of mission iterations taken by live workers, as they run
between the destructor prologue and the destructor's wait for decline == 0. -/
inductive dtor_steps : workbranch → workbranch → Prop
  | refl (s : workbranch) : dtor_steps s s
  | step {a b : workbranch} (wid : Nat) (h : dtor_steps a b)
      (hw : wid ∈ b.workers) : dtor_steps a (mission_step b wid).1

end workbranch

/-- Scaling command that one supervisor tick issues to a branch. -/
inductive superCmd
  | add
  | del
  deriving DecidableEq, Repr

/-- Modulus of size_t arithmetic. -/
def SIZEMOD : Nat := 2 ^ 64

/-- One supervisor tick decision for a single branch (supervisor::mission):
with taskNums and workNums as observed under the lock, scale up by
min(m_wmax - workNums, needed) add_worker calls when taskNums > 0 (the
size_t subtraction m_wmax - workNums taken modulo 2^64, the conditional
needed = taskNums - workNums when positive, else 0), otherwise one
del_worker call when workNums > m_wmin, otherwise nothing. -/
def supervise_branch (wmin wmax tasks workers : Nat) : List superCmd :=
  if 0 < tasks then
    let needed := if workers < tasks then tasks - workers else 0
    let capacity := (wmax + SIZEMOD - workers) % SIZEMOD
    List.replicate (min capacity needed) superCmd.add
  else if wmin < workers then
    [superCmd.del]
  else
    []

/-- The fields of class supervisor that its mutex guards (tick callback and
branch list aside). -/
structure supervisor where
  m_stopping : Bool
  m_wmin : Nat
  m_wmax : Nat
  m_tout : Nat
  m_tval : Nat
  deriving DecidableEq, Repr

namespace supervisor

/-- supervisor::supervisor(wmin, wmax, tout) - m_tout and m_tval both start
at the construction argument tout. -/
def construct (wmin wmax tout : Nat) : supervisor :=
  { m_stopping := false, m_wmin := wmin, m_wmax := wmax,
    m_tout := tout, m_tval := tout }

/-- supervisor::suspend(t) - set the current period m_tout to t. -/
def suspend (s : supervisor) (t : Nat) : supervisor :=
  { s with m_tout := t }

/-- supervisor::proceed - restore m_tout from the constant m_tval. -/
def proceed (s : supervisor) : supervisor :=
  { s with m_tout := s.m_tval }

/-- A client call sequence: some t is suspend(t), none is proceed(). -/
def applyCalls (s : supervisor) : List (Option Nat) → supervisor
  | [] => s
  | some t :: ops => applyCalls (suspend s t) ops
  | none :: ops => applyCalls (proceed s) ops

end supervisor

/-- The state of class workspace: the owned branch list (each entry is the
pointer identity of the branch paired with its state), the cursor as an
index into that list (none is end(), taken exactly when the list is
empty), and the owned supervisor map keyed by pointer identity. -/
structure workspace where
  m_branchList : List (Nat × workbranch)
  cur : Option Nat
  m_superMap : List (Nat × supervisor)
  deriving DecidableEq, Repr

namespace workspace

/-- Junk entry used to make list indexing total; theorems about the code
only index within bounds. -/
def defaultEntry : Nat × workbranch :=
  (0, workbranch.init waitStrategy.lowlatancy)

/-- The branch-list entry at index i. -/
def entryD (ws : workspace) (i : Nat) : Nat × workbranch :=
  ws.m_branchList.getD i defaultEntry

/-- workspace::forward applied to a cursor index over a list of length n:
advance one position, wrapping from end to begin. -/
def forwardIdx (n i : Nat) : Nat :=
  if i + 1 = n then 0 else i + 1

/-- workspace::submit (void form): let A be the branch at the cursor, let B
be the branch after advancing the cursor one position (wrapping), compare
num_tasks and submit to B exactly when it has strictly fewer tasks.
Returns the updated workspace and the receiving index (none only if the
assert !m_branchList.empty() was violated, in which case nothing happens
in the model). -/
def submit (ws : workspace) (t : Nat) : workspace × Option Nat :=
  match ws.cur with
  | none => (ws, none)
  | some i =>
    let n := ws.m_branchList.length
    let j := forwardIdx n i
    let a := workbranch.num_tasks (ws.entryD i).2
    let b := workbranch.num_tasks (ws.entryD j).2
    let tgt := if b < a then j else i
    let e := ws.entryD tgt
    ({ ws with
        m_branchList := ws.m_branchList.set tgt (e.1, workbranch.submit_normal e.2 t),
        cur := some j },
      some tgt)

/-- The scan loop inside workspace::detach(bid): index of the first entry
whose pointer equals p. -/
def findBranch (p : Nat) : List (Nat × workbranch) → Option Nat
  | [] => none
  | e :: rest => if e.1 = p then some 0 else (findBranch p rest).map (· + 1)

/-- workspace::detach(bid): scan for the entry whose pointer is p; when
found, move its unique_ptr out, erase the node, and re-point the cursor at
the node that followed it (begin when the erased node was last, end when
the list became empty); when not found, return nullptr and change nothing. -/
def detach_bid (ws : workspace) (p : Nat) : Option workbranch × workspace :=
  match findBranch p ws.m_branchList with
  | none => (none, ws)
  | some j =>
    let up := (ws.m_branchList.getD j defaultEntry).2
    let bl := ws.m_branchList.eraseIdx j
    let c : Option Nat :=
      if bl.isEmpty then none
      else if j + 1 = ws.m_branchList.length then some 0
      else some j
    (some up, { ws with m_branchList := bl, cur := c })

/-- std::map::find on the supervisor map. -/
def findSuper (p : Nat) : List (Nat × supervisor) → Option supervisor
  | [] => none
  | e :: rest => if e.1 = p then some e.2 else findSuper p rest

/-- std::map::erase of the found iterator on the supervisor map. -/
def eraseSuper (p : Nat) : List (Nat × supervisor) → List (Nat × supervisor)
  | [] => []
  | e :: rest => if e.1 = p then rest else e :: eraseSuper p rest

/-- workspace::detach(sid): find p in the supervisor map; when present,
move the unique_ptr out and erase the entry; when absent, return nullptr
and change nothing. -/
def detach_sid (ws : workspace) (p : Nat) : Option supervisor × workspace :=
  match findSuper p ws.m_superMap with
  | none => (none, ws)
  | some sup =>
    (some sup, { ws with m_superMap := eraseSuper p ws.m_superMap })

end workspace

/-! Concrete states used by counterexamples and witnesses. -/

/-- A branch in phase 1 of wait_tasks (m_is_waiting set) whose queue has
just received a submission: one worker, one queued task, no retirement
request. -/
def wbCex : workbranch :=
  { workers := [0], tq := [7], decline := 0, task_done_workers := 0,
    waiting_finished_worker := 0, m_is_waiting := true, destructing := false,
    wait_strategy := waitStrategy.lowlatancy }

/-- Like wbCex but with an empty queue. -/
def wbQ : workbranch :=
  { wbCex with tq := [] }

/-- A quiescent one-worker blocking branch about to be destructed. -/
def wbD : workbranch :=
  { workers := [5], tq := [], decline := 0, task_done_workers := 0,
    waiting_finished_worker := 0, m_is_waiting := false, destructing := false,
    wait_strategy := waitStrategy.blocking }

/-- A branch with no workers at all. -/
def wbEmpty : workbranch :=
  { workers := [], tq := [3], decline := 0, task_done_workers := 0,
    waiting_finished_worker := 0, m_is_waiting := false, destructing := false,
    wait_strategy := waitStrategy.blocking }

/-- A two-worker blocking branch. -/
def wbBlocking : workbranch :=
  { workers := [1, 2], tq := [3], decline := 0, task_done_workers := 0,
    waiting_finished_worker := 0, m_is_waiting := false, destructing := false,
    wait_strategy := waitStrategy.blocking }

/-- A workspace owning three branches (pointers 1, 2, 3), cursor on the
first. -/
def wsThree : workspace :=
  { m_branchList :=
      [(1, workbranch.init waitStrategy.lowlatancy),
       (2, workbranch.init waitStrategy.lowlatancy),
       (3, workbranch.init waitStrategy.lowlatancy)],
    cur := some 0,
    m_superMap := [(4, supervisor.construct 1 4 500)] }

/-- A workspace owning two branches, the one at the cursor with two queued
tasks and its successor with one. -/
def wsTwo : workspace :=
  { m_branchList :=
      [(1, { workbranch.init waitStrategy.lowlatancy with tq := [9, 9] }),
       (2, { workbranch.init waitStrategy.lowlatancy with tq := [4] })],
    cur := some 0,
    m_superMap := [] }

/-- An enqueue call sequence mixing back- and front-pushes. -/
def qOpsW : List (taskQueue.queueOp Nat) :=
  [.back 1, .front 2, .back 3, .front 4]

/-! Helper lemmas (shared; not tied to a single claim). -/

theorem taskQueue.applyOpsFrom_eq (ops : List (taskQueue.queueOp α)) :
    ∀ q : List α, taskQueue.applyOpsFrom q ops =
      (taskQueue.frontsOf ops).reverse ++ q ++ taskQueue.backsOf ops := by
  induction ops with
  | nil =>
    intro q
    simp [taskQueue.applyOpsFrom, taskQueue.frontsOf, taskQueue.backsOf]
  | cons op ops ih =>
    intro q
    cases op with
    | back v =>
      simp only [taskQueue.applyOpsFrom, taskQueue.push_back, ih,
        taskQueue.frontsOf, taskQueue.backsOf]
      simp
    | front v =>
      simp only [taskQueue.applyOpsFrom, taskQueue.push_front, ih,
        taskQueue.frontsOf, taskQueue.backsOf]
      simp

theorem taskQueue.popAll_eq_self (q : List α) : taskQueue.popAll q = q := by
  induction q with
  | nil => rfl
  | cons x xs ih => simp [taskQueue.popAll, taskQueue.try_pop, ih]

theorem workbranch.range_fold_workers (strategy : waitStrategy) :
    ∀ n : Nat, ((List.range n).foldl workbranch.add_worker
      (workbranch.init strategy)).workers = List.range n := by
  intro n
  induction n with
  | zero => rfl
  | succ n ih =>
    rw [List.range_succ, List.foldl_append]
    simp only [List.foldl_cons, List.foldl_nil]
    rw [workbranch.add_worker, ih]
    simp [List.range_succ]

theorem supervisor.applyCalls_tval :
    ∀ (ops : List (Option Nat)) (s : supervisor),
      (supervisor.applyCalls s ops).m_tval = s.m_tval := by
  intro ops
  induction ops with
  | nil => intro s; rfl
  | cons op ops ih =>
    intro s
    cases op with
    | none => exact ih (supervisor.proceed s)
    | some t => exact ih (supervisor.suspend s t)

/-! Claim theorems. -/

/-- Claim C7: taskQueue::try_pop is non-blocking and fails exactly on the
empty queue, leaving it unchanged; draining the queue after any sequence
of pushes pops the front-pushed elements first, in reverse push order (a
later front-push precedes all earlier ones), followed by the back-pushed
elements in push order. -/
theorem taskQueue_try_pop_and_order :
    (∀ q : List Nat, taskQueue.try_pop q = none ↔ q = []) ∧
    (∀ (q rest : List Nat) (t : Nat),
      taskQueue.try_pop q = some (t, rest) → q = t :: rest) ∧
    (∀ ops : List (taskQueue.queueOp Nat),
      taskQueue.popAll (taskQueue.applyOps ops) =
        (taskQueue.frontsOf ops).reverse ++ taskQueue.backsOf ops) := by
  refine ⟨?_, ?_, ?_⟩
  · intro q
    cases q <;> simp [taskQueue.try_pop]
  · intro q rest t h
    cases q with
    | nil => simp [taskQueue.try_pop] at h
    | cons x xs =>
      simp [taskQueue.try_pop] at h
      simp [h.1, h.2]
  · intro ops
    rw [taskQueue.popAll_eq_self, taskQueue.applyOps, taskQueue.applyOpsFrom_eq]
    simp

/-- Witness for C7 at concrete inputs. -/
theorem taskQueue_try_pop_and_order_witness :
    ([3, 4] : List Nat) = 3 :: [4] ∧
    taskQueue.popAll (taskQueue.applyOps qOpsW) = [4, 2, 1, 3] :=
  ⟨taskQueue_try_pop_and_order.2.1 [3, 4] [4] 3 rfl,
   taskQueue_try_pop_and_order.2.2 qOpsW⟩

/-- Claim C8: workbranch(wks, strategy) creates exactly max(wks, 1)
workers; in particular wks = 0 yields exactly one worker. -/
theorem workbranch_construct_worker_count (wks : Int) (strategy : waitStrategy) :
    workbranch.num_workers (workbranch.construct wks strategy) = (max wks 1).toNat ∧
    workbranch.num_workers (workbranch.construct 0 strategy) = 1 := by
  constructor
  · rw [workbranch.num_workers, workbranch.construct,
      workbranch.range_fold_workers]
    exact List.length_range _
  · rfl

/-- Claim C9: for a supervisor constructed with tick period tick, suspend(t)
for any t (the default t = unsigned(-1) included) followed by proceed()
restores the current period m_tout to exactly tick; more generally any
call sequence of suspends and proceeds leaves m_tval at tick, so a final
proceed() always restores tick. -/
theorem supervisor_suspend_proceed_restores (wmin wmax tick t : Nat)
    (ops : List (Option Nat)) :
    (supervisor.proceed
      (supervisor.suspend (supervisor.construct wmin wmax tick) t)).m_tout = tick ∧
    (supervisor.proceed
      (supervisor.applyCalls (supervisor.construct wmin wmax tick) ops)).m_tout = tick := by
  constructor
  · rfl
  · rw [supervisor.proceed, supervisor.applyCalls_tval]
    rfl

/-- Claim C1 fails on the code: with is_waiting set, a worker whose branch
has no retirement request and a non-empty queue still pops and executes a
task in its mission iteration (the pop is attempted before is_waiting is
consulted), so a submission made during phase 1 of wait_tasks can be
popped during phase 1. -/
theorem mission_pops_during_is_waiting_cex :
    wbCex.m_is_waiting = true ∧
    (workbranch.mission_step wbCex 0).2 = workbranch.missionEvent.exec 7 ∧
    (workbranch.mission_step wbCex 0).1.tq = [] := by
  decide

/-- Claim C1 (amended): a mission iteration pops a task exactly when the
branch has decline = 0 and a non-empty queue, regardless of is_waiting;
only a worker that observes the queue empty while is_waiting holds parks
and reports idle without popping. -/
theorem mission_pop_iff (s : workbranch) (wid : Nat) :
    ((∃ t, (workbranch.mission_step s wid).2 = workbranch.missionEvent.exec t) ↔
      (s.decline = 0 ∧ s.tq ≠ [])) ∧
    (s.decline = 0 → s.tq = [] → s.m_is_waiting = true →
      (workbranch.mission_step s wid).2 = workbranch.missionEvent.quiesce ∧
      (workbranch.mission_step s wid).1.tq = s.tq) := by
  constructor
  · constructor
    · rintro ⟨t, ht⟩
      by_cases hd : s.decline = 0
      · refine ⟨hd, ?_⟩
        cases htq : s.tq with
        | nil =>
          rw [workbranch.mission_step] at ht
          simp only [hd, if_pos, htq, taskQueue.try_pop] at ht
          cases hw : s.m_is_waiting <;> simp [hw] at ht
        | cons x xs => simp [htq]
      · rw [workbranch.mission_step] at ht
        simp [hd] at ht
    · rintro ⟨hd, htq⟩
      cases h : s.tq with
      | nil => exact absurd h htq
      | cons x xs =>
        refine ⟨x, ?_⟩
        rw [workbranch.mission_step]
        simp [hd, h, taskQueue.try_pop]
  · intro hd htq hw
    rw [workbranch.mission_step]
    simp [hd, htq, taskQueue.try_pop, hw]

/-- Witness for the amended C1: a worker that sees the empty queue during
phase 1 reports idle and leaves the queue alone. -/
theorem mission_pop_iff_witness :
    (workbranch.mission_step wbQ 0).2 = workbranch.missionEvent.quiesce ∧
    (workbranch.mission_step wbQ 0).1.tq = wbQ.tq :=
  (mission_pop_iff wbQ 0).2 rfl rfl rfl

/-- The destruction-phase invariant: once ~workbranch has set decline to
the worker count, every mission iteration keeps decline equal to the
number of live workers (each retirement decrements both together). -/
theorem workbranch.dtor_steps_invariant {a b : workbranch}
    (h : workbranch.dtor_steps a b) (ha : a.decline = a.workers.length) :
    b.decline = b.workers.length := by
  induction h with
  | refl => exact ha
  | step wid h hw ih =>
    rename_i b'
    have hinv := ih
    have hpos : 0 < b'.workers.length := List.length_pos_of_mem hw
    have hd : ¬ b'.decline = 0 := by omega
    rw [workbranch.mission_step]
    simp only [hd, if_false]
    show b'.decline - 1 = (b'.workers.erase wid).length
    rw [List.length_erase_of_mem hw]
    omega

/-- Claim C2: the destructor prologue sets decline to the current worker
count and destructing to true; from there, once retiring workers have
driven decline to 0 (the condition ~workbranch waits for on thread_cv),
the worker map is empty, so no worker spawned by the branch survives the
destructor. -/
theorem workbranch_dtor_drains_workers (s0 s : workbranch)
    (h : workbranch.dtor_steps (workbranch.dtor_begin s0) s)
    (hzero : s.decline = 0) :
    s.workers = [] ∧
    (workbranch.dtor_begin s0).decline = s0.workers.length ∧
    (workbranch.dtor_begin s0).destructing = true := by
  refine ⟨?_, rfl, rfl⟩
  have hinv := workbranch.dtor_steps_invariant h rfl
  have hlen : s.workers.length = 0 := by omega
  exact List.eq_nil_of_length_eq_zero hlen

/-- Witness for C2: a one-worker blocking branch; after the destructor
prologue and one retiring mission iteration, the worker map is empty. -/
theorem workbranch_dtor_drains_workers_witness :
    ((workbranch.mission_step (workbranch.dtor_begin wbD) 5).1).workers = [] :=
  (workbranch_dtor_drains_workers wbD _
    (workbranch.dtor_steps.step 5 (workbranch.dtor_steps.refl _) (by decide))
    (by decide)).1

/-- Claim C5: del_worker fails (EmptyPool) exactly when the worker map is
empty and then changes nothing; otherwise it increments decline by exactly
one, leaves the worker map and the task queue untouched, notifies at most
one blocked worker (exactly one precisely under the BLOCKING strategy),
and involves no wait for retirement. -/
theorem workbranch_del_worker_contract (s : workbranch) :
    ((workbranch.del_worker s).1.isSome ↔ s.workers = []) ∧
    (s.workers = [] →
      (workbranch.del_worker s).2.1 = s ∧ (workbranch.del_worker s).2.2 = 0) ∧
    (s.workers ≠ [] →
      (workbranch.del_worker s).2.1.decline = s.decline + 1 ∧
      (workbranch.del_worker s).2.1.workers = s.workers ∧
      (workbranch.del_worker s).2.1.tq = s.tq ∧
      (workbranch.del_worker s).2.2 ≤ 1 ∧
      ((workbranch.del_worker s).2.2 = 1 ↔
        s.wait_strategy = waitStrategy.blocking)) := by
  by_cases h : s.workers = []
  · simp [workbranch.del_worker, h]
  · have hne : s.workers.isEmpty = false := by
      simp [List.isEmpty_iff, h]
    have hdel : workbranch.del_worker s =
        (none, { s with decline := s.decline + 1 },
          if s.wait_strategy = waitStrategy.blocking then 1 else 0) := by
      rw [workbranch.del_worker]
      simp [hne]
    constructor
    · rw [hdel]
      simp [h]
    constructor
    · intro hc
      exact absurd hc h
    · intro _
      rw [hdel]
      refine ⟨rfl, rfl, rfl, ?_, ?_⟩
      · by_cases hb : s.wait_strategy = waitStrategy.blocking <;> simp [hb]
      · by_cases hb : s.wait_strategy = waitStrategy.blocking <;> simp [hb]

/-- Witness for C5 at concrete branches: the empty branch fails, a
two-worker blocking branch gets decline incremented and one notify. -/
theorem workbranch_del_worker_contract_witness :
    ((workbranch.del_worker wbEmpty).1.isSome ↔ wbEmpty.workers = []) ∧
    (workbranch.del_worker wbBlocking).2.1.decline = wbBlocking.decline + 1 ∧
    (workbranch.del_worker wbBlocking).2.2 = 1 :=
  ⟨(workbranch_del_worker_contract wbEmpty).1,
   ((workbranch_del_worker_contract wbBlocking).2.2 (by decide)).1,
   (((workbranch_del_worker_contract wbBlocking).2.2 (by decide)).2.2.2.2).mpr rfl⟩

/-- Claim C3: at a supervisor tick, a branch observed with tasks > 0 gets
exactly min(wmax - workers, max(0, tasks - workers)) add_worker calls and
no del_worker; a branch observed with tasks = 0 and workers > wmin gets
exactly one del_worker call; otherwise neither.  The hypotheses reflect
the source: the assert workNums <= m_wmax, and wmax being a size_t. -/
theorem supervisor_tick_scaling (wmin wmax tasks workers : Nat)
    (hsz : wmax < 2 ^ 64) (hw : workers ≤ wmax) :
    (0 < tasks →
      ((supervise_branch wmin wmax tasks workers).count superCmd.add : Int) =
        min ((wmax : Int) - workers) (max 0 ((tasks : Int) - workers)) ∧
      (supervise_branch wmin wmax tasks workers).count superCmd.del = 0) ∧
    (tasks = 0 → wmin < workers →
      supervise_branch wmin wmax tasks workers = [superCmd.del]) ∧
    (tasks = 0 → workers ≤ wmin →
      supervise_branch wmin wmax tasks workers = []) := by
  refine ⟨?_, ?_, ?_⟩
  · intro hpos
    have hcap : (wmax + SIZEMOD - workers) % SIZEMOD = wmax - workers := by
      rw [SIZEMOD]
      omega
    rw [supervise_branch]
    simp only [hpos, if_pos, hcap]
    constructor
    · rw [List.count_replicate_self]
      by_cases hlt : workers < tasks
      · rw [if_pos hlt]
        omega
      · rw [if_neg hlt]
        omega
    · apply List.count_eq_zero_of_not_mem
      simp [List.mem_replicate]
  · intro ht hlt
    rw [supervise_branch]
    simp [ht, hlt]
  · intro ht hle
    rw [supervise_branch]
    simp [ht, Nat.not_lt.mpr hle]

/-- Witness for C3 at a concrete tick: wmax = 4, 2 workers, 5 queued tasks
give exactly min(2, 3) = 2 add_worker calls and no del_worker. -/
theorem supervisor_tick_scaling_witness :
    ((supervise_branch 0 4 5 2).count superCmd.add : Int) =
      min ((4 : Int) - 2) (max 0 ((5 : Int) - 2)) ∧
    (supervise_branch 0 4 5 2).count superCmd.del = 0 :=
  (supervisor_tick_scaling 0 4 5 2 (by norm_num) (by norm_num)).1 (by norm_num)

theorem getD_set_self (l : List α) (i : Nat) (a d : α) (h : i < l.length) :
    (l.set i a).getD i d = a := by
  simp [List.getD]
  rw [List.getElem?_set_self]
  · rfl
  · exact h

theorem workspace.forwardIdx_lt (n i : Nat) (hi : i < n) :
    workspace.forwardIdx n i < n := by
  rw [workspace.forwardIdx]
  by_cases h : i + 1 = n
  · simp only [h, if_pos]
    omega
  · rw [if_neg h]
    omega

/-- Claim C4: a workspace submit on a non-empty branch list reads A at the
cursor, advances the cursor one position (wrapping) to B, submits to B
exactly when B has strictly fewer tasks than A (ties to A) by pushing the
task at the back of the receiver's queue, and leaves the cursor on B. -/
theorem workspace_submit_two_choice (ws : workspace) (t : Nat) (i tgt : Nat)
    (hcur : ws.cur = some i) (hi : i < ws.m_branchList.length)
    (htgt : tgt = if workbranch.num_tasks
          (ws.entryD (workspace.forwardIdx ws.m_branchList.length i)).2 <
        workbranch.num_tasks (ws.entryD i).2
      then workspace.forwardIdx ws.m_branchList.length i else i) :
    (workspace.submit ws t).2 = some tgt ∧
    (workspace.submit ws t).1.cur =
      some (workspace.forwardIdx ws.m_branchList.length i) ∧
    ((workspace.submit ws t).1.entryD tgt).2.tq = (ws.entryD tgt).2.tq ++ [t] ∧
    (workspace.submit ws t).1.m_branchList.length = ws.m_branchList.length := by
  have hj := workspace.forwardIdx_lt ws.m_branchList.length i hi
  have htlt : tgt < ws.m_branchList.length := by
    rw [htgt]
    split
    · exact hj
    · exact hi
  refine ⟨?_, ?_, ?_, ?_⟩
  · simp only [workspace.submit, hcur]
    rw [← htgt]
  · simp only [workspace.submit, hcur]
  · simp only [workspace.submit, hcur]
    rw [← htgt]
    simp only [workspace.entryD]
    rw [getD_set_self _ _ _ _ htlt]
    simp [workbranch.submit_normal, taskQueue.push_back]
  · simp only [workspace.submit, hcur]
    exact List.length_set ..

/-- Witness for C4: two branches with 2 and 1 queued tasks; the task goes
to the emptier successor B and the cursor rests on B. -/
theorem workspace_submit_two_choice_witness :
    (workspace.submit wsTwo 6).2 = some 1 ∧
    (workspace.submit wsTwo 6).1.cur = some 1 ∧
    ((workspace.submit wsTwo 6).1.entryD 1).2.tq = (wsTwo.entryD 1).2.tq ++ [6] ∧
    (workspace.submit wsTwo 6).1.m_branchList.length = wsTwo.m_branchList.length :=
  workspace_submit_two_choice wsTwo 6 0 1 rfl (by decide) (by decide)

theorem getD_eraseIdx_succ :
    ∀ (l : List α) (j : Nat) (d : α), j + 1 < l.length →
      (l.eraseIdx j).getD j d = l.getD (j + 1) d := by
  intro l
  induction l with
  | nil =>
    intro j d h
    simp at h
  | cons x xs ih =>
    intro j d h
    cases j with
    | zero => simp [List.eraseIdx]
    | succ k =>
      simp only [List.eraseIdx]
      exact ih k d (by simpa using h)

theorem workspace.findBranch_spec (p : Nat) :
    ∀ (l : List (Nat × workbranch)) (j : Nat),
      workspace.findBranch p l = some j →
      j < l.length ∧ (l.getD j workspace.defaultEntry).1 = p := by
  intro l
  induction l with
  | nil =>
    intro j h
    simp [workspace.findBranch] at h
  | cons e rest ih =>
    intro j h
    rw [workspace.findBranch] at h
    by_cases he : e.1 = p
    · rw [if_pos he] at h
      cases h
      simpa using he
    · rw [if_neg he] at h
      cases hr : workspace.findBranch p rest with
      | none =>
        rw [hr] at h
        simp at h
      | some k =>
        rw [hr] at h
        simp at h
        obtain ⟨hk, hget⟩ := ih k hr
        subst h
        constructor
        · simpa using hk
        · rw [List.getD_cons_succ]
          exact hget

/-- Claim C6 fails on the code: detaching a branch the cursor does not
point at still moves the cursor.  Here the cursor is on branch 1; after
detaching branch 2 the cursor points at branch 3 although branch 1 is
still in the list (at its old position). -/
theorem workspace_detach_moves_cursor_cex :
    wsThree.cur = some 0 ∧
    (wsThree.entryD 0).1 = 1 ∧
    ((workspace.detach_bid wsThree 2).2.entryD 0).1 = 1 ∧
    (workspace.detach_bid wsThree 2).2.cur = some 1 ∧
    ((workspace.detach_bid wsThree 2).2.entryD 1).1 = 3 := by
  decide

/-- Claim C6 (amended): detach(bid) on a present handle removes exactly the
identified branch and returns its ownership; afterwards the cursor is set,
regardless of where it pointed before, to the element that followed the
removed one (wrapping to begin when the removed element was last), or to
end() when the list became empty.  The supervisor map is untouched. -/
theorem workspace_detach_bid_found (ws : workspace) (p j : Nat)
    (hj : workspace.findBranch p ws.m_branchList = some j) :
    (workspace.detach_bid ws p).1 = some (ws.entryD j).2 ∧
    (ws.entryD j).1 = p ∧
    (workspace.detach_bid ws p).2.m_branchList = ws.m_branchList.eraseIdx j ∧
    (workspace.detach_bid ws p).2.m_superMap = ws.m_superMap ∧
    (workspace.detach_bid ws p).2.m_branchList.length = ws.m_branchList.length - 1 ∧
    (workspace.detach_bid ws p).2.cur =
      (if ws.m_branchList.length = 1 then none
       else if j + 1 = ws.m_branchList.length then some 0
       else some j) ∧
    (j + 1 < ws.m_branchList.length →
      (workspace.detach_bid ws p).2.entryD j = ws.entryD (j + 1)) := by
  obtain ⟨hjlt, hjp⟩ := workspace.findBranch_spec p ws.m_branchList j hj
  have hlen : (ws.m_branchList.eraseIdx j).length = ws.m_branchList.length - 1 := by
    rw [List.length_eraseIdx]
    simp [hjlt]
  refine ⟨?_, hjp, ?_, ?_, ?_, ?_, ?_⟩
  · simp only [workspace.detach_bid, hj]
    rfl
  · simp only [workspace.detach_bid, hj]
  · simp only [workspace.detach_bid, hj]
  · simp only [workspace.detach_bid, hj]
    exact hlen
  · simp only [workspace.detach_bid, hj]
    by_cases h1 : ws.m_branchList.length = 1
    · have he : (ws.m_branchList.eraseIdx j).isEmpty = true := by
        rw [List.isEmpty_iff_length_eq_zero, hlen, h1]
      simp [he, h1]
    · have he : ¬ (ws.m_branchList.eraseIdx j).isEmpty = true := by
        rw [List.isEmpty_iff_length_eq_zero, hlen]
        omega
      simp [he, h1]
  · intro hsucc
    simp only [workspace.detach_bid, hj, workspace.entryD]
    exact getD_eraseIdx_succ _ _ _ hsucc

/-- Witness for the amended C6 on the concrete three-branch workspace. -/
theorem workspace_detach_bid_found_witness :
    (workspace.detach_bid wsThree 2).2.cur =
      (if wsThree.m_branchList.length = 1 then none
       else if 1 + 1 = wsThree.m_branchList.length then some 0
       else some 1) ∧
    (workspace.detach_bid wsThree 2).2.m_branchList.length =
      wsThree.m_branchList.length - 1 :=
  ⟨(workspace_detach_bid_found wsThree 2 1 rfl).2.2.2.2.2.1,
   (workspace_detach_bid_found wsThree 2 1 rfl).2.2.2.2.1⟩

/-- Claim C10: detach with a bid whose pointer is not in the branch list
returns null and changes nothing (branch list, cursor and supervisor map all
unchanged); likewise detach with an sid absent from the supervisor map, so
a double detach of the same handle is harmless. -/
theorem workspace_detach_absent_noop (ws : workspace) (p q : Nat)
    (hb : workspace.findBranch p ws.m_branchList = none)
    (hs : workspace.findSuper q ws.m_superMap = none) :
    workspace.detach_bid ws p = (none, ws) ∧
    workspace.detach_sid ws q = (none, ws) := by
  constructor
  · simp [workspace.detach_bid, hb]
  · simp [workspace.detach_sid, hs]

/-- Witness for C10: unknown handles on the three-branch workspace. -/
theorem workspace_detach_absent_noop_witness :
    workspace.detach_bid wsThree 9 = (none, wsThree) ∧
    workspace.detach_sid wsThree 9 = (none, wsThree) :=
  workspace_detach_absent_noop wsThree 9 9 rfl rfl

end sunshine
